import Mathlib

/-!
Verification of the Opportunity lifecycle controller
(erpnext/crm/doctype/opportunity/opportunity.py) and the Item Group
dashboard descriptor (erpnext/setup/doctype/item_group/item_group_dashboard.py).

The record store is modelled as explicit lists of rows; every query the
source issues against the store becomes a filter or lookup over those lists.
Python string emptiness (falsiness) is modelled as equality with the empty
string; an optional value that Python represents as None is an Option.
Operations that can raise return Except.
-/

namespace ERPNext

/-- A row of the Quotation table (also used for the Vehicle Quotation table,
which the source filters by the same fields: opportunity link, docstatus,
status). -/
structure QuotationRec where
  name : String
  opportunity : String
  docstatus : Nat
  status : String
deriving Repr, DecidableEq

/-- A row of the Quotation Item child table; has_ordered_quotation joins
Quotation with Quotation Item on parent and filters by prevdoc_docname. -/
structure QuotationItemRec where
  parent : String
  prevdoc_docname : String
deriving Repr, DecidableEq

/-- A row of the Item table, holding the columns the source reads. -/
structure ItemRec where
  name : String
  item_name : String
  description : String
  item_group : String
  brand : String
  stock_uom : String
  image : String
deriving Repr, DecidableEq

/-- A line item of an Opportunity, holding the fields validate_item_details
touches. An empty string models an unset (falsy) field. -/
structure OppItem where
  item_code : String
  item_name : String
  description : String
  item_group : String
  brand : String
deriving Repr, DecidableEq

/-- One entry of the lost_reasons child table of an Opportunity. -/
structure LostReason where
  lost_reason : String
deriving Repr, DecidableEq

/-- The Opportunity document: the fields that the verified operations read or
write. -/
structure Opportunity where
  name : String
  status : String
  order_lost_reason : String
  items : List OppItem
  lost_reasons : List LostReason
deriving Repr, DecidableEq

/-- The record store visible to the Opportunity controller: the tables the
source queries. -/
structure DB where
  quotations : List QuotationRec
  vehicle_quotations : List QuotationRec
  quotation_items : List QuotationItemRec
  item_records : List ItemRec
deriving Repr

/-- Filter used by has_active_quotation for both quotation tables: linked to
the opportunity, submitted (docstatus 1), and status not in Lost, Closed. -/
def activeFilter (oppName : String) (q : QuotationRec) : Bool :=
  q.opportunity == oppName && q.docstatus == 1 &&
    !(q.status == "Lost" || q.status == "Closed")

/-- Embeds Opportunity.has_active_quotation: a get_value over Vehicle
Quotation and a get_all over Quotation, both filtered by opportunity link,
docstatus 1 and status not in Lost, Closed; the Python return value
(quotation or vehicle_quotation) is truthy exactly when either query found a
row. -/
def Opportunity.has_active_quotation (db : DB) (self : Opportunity) : Bool :=
  let vehicle_quotation := db.vehicle_quotations.find? (activeFilter self.name)
  let quotation := (db.quotations.filter (activeFilter self.name)).map (fun q => q.name)
  !quotation.isEmpty || vehicle_quotation.isSome

/-- Embeds Opportunity.has_ordered_quotation: Vehicle Quotation get_value
with status Ordered, and a SQL join of Quotation with Quotation Item on
parent, filtered by prevdoc_docname and status Ordered. -/
def Opportunity.has_ordered_quotation (db : DB) (self : Opportunity) : Bool :=
  let vehicle_quotation := db.vehicle_quotations.find? (fun q =>
    q.opportunity == self.name && q.docstatus == 1 && q.status == "Ordered")
  let quotation := (db.quotations.filter (fun q =>
    q.docstatus == 1 && q.status == "Ordered" &&
      db.quotation_items.any (fun qi =>
        qi.parent == q.name && qi.prevdoc_docname == self.name))).map (fun q => q.name)
  !quotation.isEmpty || vehicle_quotation.isSome

/-- Embeds Opportunity.has_lost_quotation. The Python function returns False
when a lost quotation exists alongside an active one, True when a lost
quotation exists and no active one does, and falls off the end (None) when no
lost quotation exists; the three outcomes are modelled as some false,
some true and none. -/
def Opportunity.has_lost_quotation (db : DB) (self : Opportunity) : Option Bool :=
  let vehicle_quotation := db.vehicle_quotations.find? (fun q =>
    q.opportunity == self.name && q.docstatus == 1 && q.status == "Lost")
  let lost_quotation := (db.quotations.filter (fun q =>
    q.docstatus == 1 && q.opportunity == self.name && q.status == "Lost")).map
      (fun q => q.name)
  if !lost_quotation.isEmpty || vehicle_quotation.isSome then
    if self.has_active_quotation db then some false
    else some true
  else none

/-- Outcome of declare_enquiry_lost: the document after the call, whether
save was reached, and the user-facing error raised by frappe.throw if any. -/
structure EnquiryLostResult where
  doc : Opportunity
  saved : Bool
  error : Option String
deriving Repr, DecidableEq

/-- Embeds Opportunity.declare_enquiry_lost: when no active quotation exists
it sets status to Lost, sets order_lost_reason when the detailed reason is
truthy (a non-empty string), appends every supplied entry to lost_reasons and
saves; otherwise it throws before touching the document. -/
def Opportunity.declare_enquiry_lost (db : DB) (self : Opportunity)
    (lost_reasons_list : List LostReason) (detailed_reason : Option String) :
    EnquiryLostResult :=
  if !(self.has_active_quotation db) then
    let doc := { self with status := "Lost" }
    let doc := match detailed_reason with
      | some r => if r == "" then doc else { doc with order_lost_reason := r }
      | none => doc
    let doc := { doc with lost_reasons := doc.lost_reasons ++ lost_reasons_list }
    { doc := doc, saved := true, error := none }
  else
    { doc := self, saved := false,
      error := some "Cannot declare as lost, because Quotation has been made." }

/-- Embeds the get_value lookup of an Item row by its primary key, returning
none (Python None) when no such Item exists. -/
def DB.getItemValue (db : DB) (code : String) : Option ItemRec :=
  db.item_records.find? (fun it => it.name == code)

/-- Embeds one iteration of the validate_item_details loop: a line item with
an empty item_code is skipped; otherwise the Item row is looked up and every
empty field among item_name, description, item_group and brand is set from
it. When the lookup returns None and some field is empty, the Python
attribute access item.get(key) on None raises; when every field is already
set, the loop body never reads the lookup result and the item is unchanged. -/
def backfillItem (db : DB) (d : OppItem) : Except String OppItem :=
  if d.item_code == "" then .ok d
  else
    match db.getItemValue d.item_code with
    | some item =>
        .ok { d with
          item_name := if d.item_name == "" then item.item_name else d.item_name,
          description := if d.description == "" then item.description else d.description,
          item_group := if d.item_group == "" then item.item_group else d.item_group,
          brand := if d.brand == "" then item.brand else d.brand }
    | none =>
        if d.item_name == "" || d.description == "" || d.item_group == ""
            || d.brand == "" then
          .error "AttributeError: NoneType object has no attribute get"
        else .ok d

/-- The validate_item_details loop over the line items: a raise in one
iteration propagates and abandons the rest of the loop. -/
def backfillItems (db : DB) : List OppItem → Except String (List OppItem)
  | [] => .ok []
  | d :: rest =>
    match backfillItem db d with
    | .error e => .error e
    | .ok d2 =>
      match backfillItems db rest with
      | .error e => .error e
      | .ok rest2 => .ok (d2 :: rest2)

/-- Embeds Opportunity.validate_item_details: returns at once when the
document has no line items, otherwise backfills each line item in order. -/
def Opportunity.validate_item_details (db : DB) (self : Opportunity) :
    Except String Opportunity :=
  if self.items.isEmpty then .ok self
  else (backfillItems db self.items).map (fun items2 => { self with items := items2 })

/-- Embeds the module-level get_item_details. The source queries the Item
table into the local variable item_details and reduces it to its first row or
an empty dict, but the returned record reads the name item, which is bound
nowhere in the function or module scope, so every call raises a NameError
before returning a value. -/
def get_item_details (db : DB) (item_code : String) : Except String ItemRec :=
  let item_details := db.item_records.filter (fun it => it.name == item_code)
  let _first_row := match item_details with
    | [] => none
    | r :: _ => some r
  .error "NameError: name item is not defined"

/-- The conditions appearing in the status_map of Opportunity.init: an eval
expression comparing self.status with a literal, or one of the three
quotation predicates named by the map. -/
inductive StatusCond where
  | evalStatusIs : String → StatusCond
  | lostQuotationExists : StatusCond
  | activeQuotationExists : StatusCond
  | orderedQuotationExists : StatusCond
deriving Repr, DecidableEq

/-- The ordered status rule list set by Opportunity.init, in source order. -/
def statusMap : List (String × StatusCond) :=
  [("Lost", StatusCond.evalStatusIs "Lost"),
   ("Lost", StatusCond.lostQuotationExists),
   ("Quotation", StatusCond.activeQuotationExists),
   ("Converted", StatusCond.orderedQuotationExists),
   ("Closed", StatusCond.evalStatusIs "Closed")]

/-- Truth value of one status_map condition on a document, with Python
truthiness for the has_lost_quotation return value (only True is truthy;
False and None are falsy). -/
def evalStatusCond (db : DB) (self : Opportunity) : StatusCond → Bool
  | StatusCond.evalStatusIs s => self.status == s
  | StatusCond.lostQuotationExists => self.has_lost_quotation db == some true
  | StatusCond.activeQuotationExists => self.has_active_quotation db
  | StatusCond.orderedQuotationExists => self.has_ordered_quotation db

/-- Modelled from the spec: the first-match evaluator that consumes
status_map (the set_status routine of the host framework, outside this
repository) scans the ordered rule list top to bottom and adopts the target
status of the first rule whose condition holds, leaving the status unchanged
when none holds. -/
def Opportunity.derivedStatus (db : DB) (self : Opportunity) : String :=
  match statusMap.find? (fun rule => evalStatusCond db self rule.2) with
  | some rule => rule.1
  | none => self.status

/-- A row of the Opportunity table as seen by the auto-close sweep: name,
status, and the last-modified time in days. -/
structure OppRow where
  name : String
  status : String
  modified : Int
deriving Repr, DecidableEq

/-- The close_opportunity_after_days threshold read from Selling Settings:
the Python expression (value or 15) yields 15 when the setting is unset
(None) or zero. -/
def closeAfterDays (setting : Option Int) : Int :=
  match setting with
  | none => 15
  | some v => if v == 0 then 15 else v

/-- One iteration of the auto-close loop: get_doc by name, set status to
Closed, save. -/
def saveClosed (db : List OppRow) (nm : String) : List OppRow :=
  db.map (fun r => if r.name == nm then { r with status := "Closed" } else r)

/-- Embeds auto_close_opportunity: reads the threshold (default 15), selects
the names of Replied opportunities whose modified time is strictly before
today minus the threshold, then closes and saves each selected record. -/
def auto_close_opportunity (db : List OppRow) (setting : Option Int)
    (today : Int) : List OppRow :=
  let auto_close_after_days := closeAfterDays setting
  let opportunities := (db.filter (fun r =>
    r.status == "Replied" && r.modified < today - auto_close_after_days)).map
      (fun r => r.name)
  opportunities.foldl saveClosed db

/-- One display group of the Item Group dashboard. -/
structure TransactionGroup where
  label : String
  items : List String
deriving Repr, DecidableEq

/-- The value returned by the Item Group dashboard descriptor. -/
structure DashboardData where
  fieldname : String
  transactions : List TransactionGroup
deriving Repr, DecidableEq

/-- Embeds item_group_dashboard.get_data: a fixed record (the host
translation wrapper on the labels is the identity in the source language). -/
def get_data : DashboardData :=
  { fieldname := "item_group",
    transactions :=
      [{ label := "Items", items := ["Item"] },
       { label := "Configuration", items := ["Item Default Rule"] }] }

/-- Specification-side predicate for C2: a quotation row linked to the named
opportunity, submitted, with status outside Lost and Closed. -/
def IsActiveQuotationFor (oppName : String) (q : QuotationRec) : Prop :=
  q.opportunity = oppName ∧ q.docstatus = 1 ∧ q.status ≠ "Lost" ∧ q.status ≠ "Closed"

/-- Specification-side predicate for C1: a quotation row linked to the named
opportunity, submitted, with status Lost. -/
def IsLostQuotationFor (oppName : String) (q : QuotationRec) : Prop :=
  q.opportunity = oppName ∧ q.docstatus = 1 ∧ q.status = "Lost"

/-- Per-line-item relation between a line item before and after the
validate_item_details backfill: the item code is kept, an item without a
code is untouched, a field that already has a value is never changed, and an
empty field is filled from the referenced Item row when one exists. -/
def ItemBackfillRel (db : DB) (d d2 : OppItem) : Prop :=
  d2.item_code = d.item_code ∧
  (d.item_code = "" → d2 = d) ∧
  (d.item_name ≠ "" → d2.item_name = d.item_name) ∧
  (d.description ≠ "" → d2.description = d.description) ∧
  (d.item_group ≠ "" → d2.item_group = d.item_group) ∧
  (d.brand ≠ "" → d2.brand = d.brand) ∧
  (d.item_code ≠ "" → ∀ it, db.getItemValue d.item_code = some it →
    (d.item_name = "" → d2.item_name = it.item_name) ∧
    (d.description = "" → d2.description = it.description) ∧
    (d.item_group = "" → d2.item_group = it.item_group) ∧
    (d.brand = "" → d2.brand = it.brand))

/-- A store with no rows at all, used by concrete witnesses. -/
def dbEmpty : DB := ⟨[], [], [], []⟩

/-- A store holding one submitted open Quotation linked to OPP-1. -/
def dbActiveQuotation : DB := ⟨[⟨"QTN-1", "OPP-1", 1, "Open"⟩], [], [], []⟩

/-- A store holding a lost and an open submitted Quotation, both linked to
OPP-1. -/
def dbLostAndActive : DB :=
  ⟨[⟨"QTN-1", "OPP-1", 1, "Lost"⟩, ⟨"QTN-2", "OPP-1", 1, "Open"⟩], [], [], []⟩

/-- A store holding one Item row, used by the backfill witness. -/
def dbWithItem : DB :=
  ⟨[], [], [], [⟨"ITEM-1", "Widget", "A widget", "Products", "Acme", "Nos", ""⟩]⟩

/-- A sample Opportunity named OPP-1 with no line items. -/
def oppSample : Opportunity := ⟨"OPP-1", "Open", "", [], []⟩

/-- A sample Opportunity with one partially filled line item. -/
def oppWithItem : Opportunity :=
  ⟨"OPP-2", "Open", "", [⟨"ITEM-1", "", "Custom text", "", ""⟩], []⟩

/-- The document oppWithItem after backfill from dbWithItem. -/
def oppWithItemFilled : Opportunity :=
  ⟨"OPP-2", "Open", "", [⟨"ITEM-1", "Widget", "Custom text", "Products", "Acme"⟩], []⟩

/-- Two Opportunity rows for the auto-close witness: one stale Replied row
and one recent Replied row. -/
def rowsSample : List OppRow :=
  [⟨"OPP-OLD", "Replied", 0⟩, ⟨"OPP-NEW", "Replied", 15⟩]

instance (oppName : String) (q : QuotationRec) :
    Decidable (IsActiveQuotationFor oppName q) := by
  unfold IsActiveQuotationFor; infer_instance

instance (oppName : String) (q : QuotationRec) :
    Decidable (IsLostQuotationFor oppName q) := by
  unfold IsLostQuotationFor; infer_instance

theorem activeFilter_iff (oppName : String) (q : QuotationRec) :
    activeFilter oppName q = true ↔ IsActiveQuotationFor oppName q := by
  simp [activeFilter, IsActiveQuotationFor, and_assoc, not_or]

theorem lostFilter_iff (oppName : String) (q : QuotationRec) :
    (q.opportunity == oppName && q.docstatus == 1 && q.status == "Lost") = true ↔
      IsLostQuotationFor oppName q := by
  simp [IsLostQuotationFor, and_assoc]

theorem has_active_quotation_iff (db : DB) (self : Opportunity) :
    self.has_active_quotation db = true ↔
      (∃ q ∈ db.quotations, IsActiveQuotationFor self.name q) ∨
      (∃ q ∈ db.vehicle_quotations, IsActiveQuotationFor self.name q) := by
  simp only [Opportunity.has_active_quotation, Bool.or_eq_true,
    Bool.not_eq_true', List.isEmpty_eq_false, ne_eq, List.map_eq_nil_iff,
    List.find?_isSome]
  constructor
  · rintro (h | ⟨q, hmem, hq⟩)
    · obtain ⟨q, hq⟩ := List.exists_mem_of_ne_nil _ h
      have hm := List.mem_filter.mp hq
      exact Or.inl ⟨q, hm.1, (activeFilter_iff _ _).mp hm.2⟩
    · exact Or.inr ⟨q, hmem, (activeFilter_iff _ _).mp hq⟩
  · rintro (⟨q, hmem, hq⟩ | ⟨q, hmem, hq⟩)
    · exact Or.inl (List.ne_nil_of_mem
        (List.mem_filter.mpr ⟨hmem, (activeFilter_iff _ _).mpr hq⟩))
    · exact Or.inr ⟨q, hmem, (activeFilter_iff _ _).mpr hq⟩

/-- Claim C2: has_active_quotation is true exactly when a submitted Quotation
or Vehicle Quotation linked to the Opportunity has a status outside Lost and
Closed. -/
theorem has_active_quotation_correct (db : DB) (self : Opportunity) :
    self.has_active_quotation db = true ↔
      (∃ q ∈ db.quotations, IsActiveQuotationFor self.name q) ∨
      (∃ q ∈ db.vehicle_quotations, IsActiveQuotationFor self.name q) :=
  has_active_quotation_iff db self

/-- Claim C1: when a lost quotation and an active quotation both exist for
the same Opportunity, has_lost_quotation returns False (Python False,
modelled some false): active takes precedence over lost. -/
theorem has_lost_quotation_active_precedence (db : DB) (self : Opportunity)
    (hlost : (∃ q ∈ db.quotations, IsLostQuotationFor self.name q) ∨
      (∃ q ∈ db.vehicle_quotations, IsLostQuotationFor self.name q))
    (hactive : (∃ q ∈ db.quotations, IsActiveQuotationFor self.name q) ∨
      (∃ q ∈ db.vehicle_quotations, IsActiveQuotationFor self.name q)) :
    self.has_lost_quotation db = some false := by
  have hact : self.has_active_quotation db = true :=
    (has_active_quotation_iff db self).mpr hactive
  have hcond : (!((db.quotations.filter (fun q =>
      q.docstatus == 1 && q.opportunity == self.name && q.status == "Lost")).map
        (fun q => q.name)).isEmpty ||
      (db.vehicle_quotations.find? (fun q =>
        q.opportunity == self.name && q.docstatus == 1 && q.status == "Lost")).isSome) = true := by
    simp only [Bool.or_eq_true, Bool.not_eq_true', List.isEmpty_eq_false, ne_eq,
      List.map_eq_nil_iff, List.find?_isSome]
    rcases hlost with ⟨q, hmem, hq⟩ | ⟨q, hmem, hq⟩
    · refine Or.inl (List.ne_nil_of_mem (List.mem_filter.mpr ⟨hmem, ?_⟩))
      obtain ⟨h1, h2, h3⟩ := hq
      simp [h1, h2, h3]
    · refine Or.inr ⟨q, hmem, ?_⟩
      obtain ⟨h1, h2, h3⟩ := hq
      simp [h1, h2, h3]
  simp only [Opportunity.has_lost_quotation, hcond, if_true, hact]

/-- Claim C1 witness: a store with a lost and an open submitted quotation
for OPP-1, where has_lost_quotation returns some false. -/
theorem has_lost_quotation_active_precedence_witness :
    ((∃ q ∈ dbLostAndActive.quotations, IsLostQuotationFor "OPP-1" q) ∧
      (∃ q ∈ dbLostAndActive.quotations, IsActiveQuotationFor "OPP-1" q)) ∧
    oppSample.has_lost_quotation dbLostAndActive = some false := by
  refine ⟨by decide, ?_⟩
  exact has_lost_quotation_active_precedence dbLostAndActive oppSample
    (Or.inl (by decide)) (Or.inl (by decide))

/-- Claim C3: declare_enquiry_lost throws when an active quotation exists;
otherwise it sets status to Lost, saves, grows lost_reasons by exactly the
number of supplied entries, and records a truthy detailed reason. -/
theorem declare_enquiry_lost_correct (db : DB) (self : Opportunity)
    (reasons : List LostReason) (detailed : Option String) :
    (self.has_active_quotation db = true →
      ((self.declare_enquiry_lost db reasons detailed).error.isSome = true ∧
       (self.declare_enquiry_lost db reasons detailed).saved = false)) ∧
    (self.has_active_quotation db = false →
      ((self.declare_enquiry_lost db reasons detailed).error = none ∧
       (self.declare_enquiry_lost db reasons detailed).doc.status = "Lost" ∧
       (self.declare_enquiry_lost db reasons detailed).doc.lost_reasons.length =
         self.lost_reasons.length + reasons.length ∧
       (self.declare_enquiry_lost db reasons detailed).saved = true ∧
       ∀ s, detailed = some s → s ≠ "" →
         (self.declare_enquiry_lost db reasons detailed).doc.order_lost_reason = s)) := by
  constructor
  · intro h
    simp [Opportunity.declare_enquiry_lost, h]
  · intro h
    cases detailed with
    | none => simp [Opportunity.declare_enquiry_lost, h]
    | some s =>
        by_cases hs : s = "" <;>
          simp [Opportunity.declare_enquiry_lost, h, hs]

/-- Claim C3 witness: on an empty store, marking OPP-1 lost with two reason
entries and a detailed reason succeeds with the stated effects. -/
theorem declare_enquiry_lost_correct_witness :
    oppSample.has_active_quotation dbEmpty = false ∧
    ((oppSample.declare_enquiry_lost dbEmpty [⟨"Price"⟩, ⟨"Timing"⟩]
        (some "Budget")).doc.status = "Lost" ∧
     (oppSample.declare_enquiry_lost dbEmpty [⟨"Price"⟩, ⟨"Timing"⟩]
        (some "Budget")).doc.lost_reasons.length = 0 + 2 ∧
     (oppSample.declare_enquiry_lost dbEmpty [⟨"Price"⟩, ⟨"Timing"⟩]
        (some "Budget")).saved = true ∧
     (oppSample.declare_enquiry_lost dbEmpty [⟨"Price"⟩, ⟨"Timing"⟩]
        (some "Budget")).doc.order_lost_reason = "Budget") := by
  have h := (declare_enquiry_lost_correct dbEmpty oppSample
    [⟨"Price"⟩, ⟨"Timing"⟩] (some "Budget")).2 rfl
  exact ⟨rfl, h.2.1, h.2.2.1, h.2.2.2.1, h.2.2.2.2 "Budget" rfl (by decide)⟩

/-- Claim C10: when an active quotation exists, declare_enquiry_lost throws
before any mutation: the document is returned exactly as it was, no save
happens, and the user-facing error is raised. -/
theorem declare_enquiry_lost_atomic_on_error (db : DB) (self : Opportunity)
    (reasons : List LostReason) (detailed : Option String)
    (h : self.has_active_quotation db = true) :
    self.declare_enquiry_lost db reasons detailed =
      { doc := self, saved := false,
        error := some "Cannot declare as lost, because Quotation has been made." } := by
  simp [Opportunity.declare_enquiry_lost, h]

/-- Claim C10 witness: with one open submitted quotation for OPP-1 the call
leaves the document untouched and raises. -/
theorem declare_enquiry_lost_atomic_on_error_witness :
    oppSample.has_active_quotation dbActiveQuotation = true ∧
    oppSample.declare_enquiry_lost dbActiveQuotation [⟨"Price"⟩] none =
      { doc := oppSample, saved := false,
        error := some "Cannot declare as lost, because Quotation has been made." } :=
  ⟨rfl, declare_enquiry_lost_atomic_on_error dbActiveQuotation oppSample
    [⟨"Price"⟩] none rfl⟩

/-- Claim C4: the claim says get_item_details returns a structured record,
but the source reads the unbound name item in its return expression, so the
call raises a NameError for every item_code, found or not. -/
theorem get_item_details_always_raises (db : DB) (item_code : String) :
    get_item_details db item_code = .error "NameError: name item is not defined" :=
  rfl

/-- Claim C9: the Item Group dashboard descriptor is the fixed mapping with
linking field item_group and the two display groups Items and Configuration. -/
theorem get_data_fixed :
    get_data.fieldname = "item_group" ∧
    get_data.transactions.map (fun t => (t.label, t.items)) =
      [("Items", ["Item"]), ("Configuration", ["Item Default Rule"])] := by
  constructor <;> rfl

theorem fillTwice (cur itv : String) :
    (if (if cur == "" then itv else cur) == "" then itv
      else (if cur == "" then itv else cur)) = (if cur == "" then itv else cur) := by
  cases h : cur == "" <;> simp [h]

theorem backfillItem_spec (db : DB) (d d2 : OppItem)
    (h : backfillItem db d = .ok d2) :
    ItemBackfillRel db d d2 ∧ backfillItem db d2 = .ok d2 := by
  unfold backfillItem at h ⊢
  by_cases hc : (d.item_code == "") = true
  · have hcs : d.item_code = "" := by simpa using hc
    rw [if_pos hc] at h
    injection h with h2
    subst h2
    refine ⟨⟨rfl, fun _ => rfl, fun _ => rfl, fun _ => rfl, fun _ => rfl,
      fun _ => rfl, fun hne => absurd hcs hne⟩, ?_⟩
    rw [if_pos hc]
  · rw [if_neg hc] at h
    cases hit : db.getItemValue d.item_code with
    | some item =>
        rw [hit] at h
        injection h with h2
        subst h2
        constructor
        · refine ⟨rfl, fun hcs => absurd hcs (by simpa using hc),
            ?_, ?_, ?_, ?_, ?_⟩
          · intro hne; simp [hne]
          · intro hne; simp [hne]
          · intro hne; simp [hne]
          · intro hne; simp [hne]
          · intro _ it hit2
            rw [hit] at hit2
            injection hit2 with h3
            subst h3
            refine ⟨?_, ?_, ?_, ?_⟩ <;> intro he <;> simp [he]
        · rw [if_neg (by simpa using hc), hit]
          simp only [fillTwice]
    | none =>
        rw [hit] at h
        by_cases hempty : (d.item_name == "" || d.description == ""
            || d.item_group == "" || d.brand == "") = true
        · rw [if_pos hempty] at h
          exact absurd h (by simp)
        · rw [if_neg hempty] at h
          injection h with h2
          subst h2
          constructor
          · refine ⟨rfl, fun hcs => absurd hcs (by simpa using hc),
              fun _ => rfl, fun _ => rfl, fun _ => rfl, fun _ => rfl, ?_⟩
            intro _ it hit2
            rw [hit] at hit2
            exact absurd hit2 (by simp)
          · rw [if_neg hc, hit, if_neg hempty]

theorem backfillItems_spec (db : DB) :
    ∀ (l l2 : List OppItem), backfillItems db l = .ok l2 →
      List.Forall₂ (ItemBackfillRel db) l l2 ∧ backfillItems db l2 = .ok l2
  | [], l2, h => by
      unfold backfillItems at h
      injection h with h2
      subst h2
      exact ⟨List.Forall₂.nil, rfl⟩
  | d :: rest, l2, h => by
      unfold backfillItems at h
      cases hd : backfillItem db d with
      | error e => rw [hd] at h; exact absurd h (by simp)
      | ok d2 =>
          rw [hd] at h
          cases hr : backfillItems db rest with
          | error e => rw [hr] at h; exact absurd h (by simp)
          | ok rest2 =>
              rw [hr] at h
              injection h with h2
              subst h2
              obtain ⟨hrel1, hagain1⟩ := backfillItem_spec db d d2 hd
              obtain ⟨hrel2, hagain2⟩ := backfillItems_spec db rest rest2 hr
              refine ⟨List.Forall₂.cons hrel1 hrel2, ?_⟩
              unfold backfillItems
              rw [hagain1, hagain2]

/-- Claim C5: when validate_item_details completes, it changes nothing but
the line items, each line item is related to its original by the backfill
relation (only empty fields filled, non-empty fields kept, items without a
code untouched), and a second run on the result returns it unchanged. -/
theorem validate_item_details_idempotent (db : DB) (doc doc2 : Opportunity)
    (h : doc.validate_item_details db = .ok doc2) :
    doc2 = { doc with items := doc2.items } ∧
    List.Forall₂ (ItemBackfillRel db) doc.items doc2.items ∧
    doc2.validate_item_details db = .ok doc2 := by
  unfold Opportunity.validate_item_details at h ⊢
  by_cases he : doc.items.isEmpty = true
  · rw [if_pos he] at h
    injection h with h2
    subst h2
    have hnil : doc.items = [] := List.isEmpty_iff.mp he
    refine ⟨rfl, ?_, ?_⟩
    · rw [hnil]; exact List.Forall₂.nil
    · rw [if_pos he]
  · rw [if_neg he] at h
    cases hb : backfillItems db doc.items with
    | error e =>
        rw [hb] at h
        exact absurd h (by simp [Except.map])
    | ok l2 =>
        rw [hb] at h
        simp only [Except.map] at h
        injection h with h2
        obtain ⟨hrel, hagain⟩ := backfillItems_spec db doc.items l2 hb
        subst h2
        have hne : l2.isEmpty = false := by
          cases l2 with
          | nil =>
              have hlen := List.Forall₂.length_eq hrel
              simp at hlen
              exact absurd (List.isEmpty_iff.mpr hlen) he
          | cons a l => rfl
        refine ⟨rfl, hrel, ?_⟩
        simp only
        rw [if_neg (by simp [hne]), hagain]
        rfl

/-- Claim C5 witness: a document whose single line item has an empty name,
group and brand is filled from the Item row, and a second run is a no-op. -/
theorem validate_item_details_idempotent_witness :
    Opportunity.validate_item_details dbWithItem oppWithItem = .ok oppWithItemFilled ∧
    List.Forall₂ (ItemBackfillRel dbWithItem) oppWithItem.items oppWithItemFilled.items ∧
    Opportunity.validate_item_details dbWithItem oppWithItemFilled = .ok oppWithItemFilled := by
  have h : Opportunity.validate_item_details dbWithItem oppWithItem =
      .ok oppWithItemFilled := by rfl
  exact ⟨h, (validate_item_details_idempotent dbWithItem _ _ h).2.1,
    (validate_item_details_idempotent dbWithItem _ _ h).2.2⟩

theorem saveClosed_foldl (names : List String) (db : List OppRow) :
    names.foldl saveClosed db =
      db.map (fun r => if r.name ∈ names then { r with status := "Closed" } else r) := by
  induction names generalizing db with
  | nil => simp
  | cons nm ns ih =>
      rw [List.foldl_cons, ih, saveClosed, List.map_map]
      apply List.map_congr_left
      intro r _hr
      by_cases h1 : r.name = nm
      · simp [Function.comp, h1, List.mem_cons]
      · simp [Function.comp, h1, List.mem_cons]

/-- Claim C6: on a store whose opportunity names are distinct, the auto-close
sweep closes exactly the Replied records whose modified time is strictly
older than today minus the threshold and leaves every other record
unchanged; the threshold is 15 when the setting is unset. -/
theorem auto_close_opportunity_correct (db : List OppRow) (setting : Option Int)
    (today : Int) (hnd : (db.map (fun r => r.name)).Nodup) :
    auto_close_opportunity db setting today =
      db.map (fun r =>
        if r.status = "Replied" ∧ r.modified < today - closeAfterDays setting
        then { r with status := "Closed" } else r) ∧
    closeAfterDays none = 15 := by
  refine ⟨?_, rfl⟩
  simp only [auto_close_opportunity]
  rw [saveClosed_foldl]
  apply List.map_congr_left
  intro r hr
  have hiff : r.name ∈ (db.filter (fun r =>
      r.status == "Replied" && r.modified < today - closeAfterDays setting)).map
        (fun r => r.name) ↔
      (r.status = "Replied" ∧ r.modified < today - closeAfterDays setting) := by
    constructor
    · intro hm
      obtain ⟨r2, hr2mem, hr2name⟩ := List.mem_map.mp hm
      have hmem2 := List.mem_filter.mp hr2mem
      have heq : r2 = r := List.inj_on_of_nodup_map hnd hmem2.1 hr hr2name
      rw [heq] at hmem2
      simpa using hmem2.2
    · intro hp
      exact List.mem_map.mpr ⟨r, List.mem_filter.mpr ⟨hr, by simp [hp.1, hp.2]⟩, rfl⟩
  by_cases hp : r.status = "Replied" ∧ r.modified < today - closeAfterDays setting
  · rw [if_pos (hiff.mpr hp), if_pos hp]
  · rw [if_neg (fun hm => hp (hiff.mp hm)), if_neg hp]

/-- Claim C6 witness: with the setting unset and today 20, the stale Replied
record (modified 0, 20 days old) closes and the recent one (modified 15,
5 days old) is untouched. -/
theorem auto_close_opportunity_correct_witness :
    (rowsSample.map (fun r => r.name)).Nodup ∧
    auto_close_opportunity rowsSample none 20 =
      [⟨"OPP-OLD", "Closed", 0⟩, ⟨"OPP-NEW", "Replied", 15⟩] := by
  refine ⟨by decide, ?_⟩
  rw [(auto_close_opportunity_correct rowsSample none 20 (by decide)).1]
  decide

/-- Claim C7: the derived status is the first-match scan of the ordered rule
list in the source order: explicit Lost, lost quotation, active quotation,
ordered quotation, explicit Closed, otherwise the status is kept. -/
theorem derivedStatus_first_match (db : DB) (self : Opportunity) :
    self.derivedStatus db =
      (if self.status = "Lost" then "Lost"
       else if self.has_lost_quotation db = some true then "Lost"
       else if self.has_active_quotation db = true then "Quotation"
       else if self.has_ordered_quotation db = true then "Converted"
       else if self.status = "Closed" then "Closed"
       else self.status) := by
  unfold Opportunity.derivedStatus statusMap
  by_cases h1 : self.status = "Lost"
  · rw [List.find?_cons_of_pos _ (by simp [evalStatusCond, h1])]
    simp [h1]
  · rw [List.find?_cons_of_neg _ (by simp [evalStatusCond, h1])]
    by_cases h2 : self.has_lost_quotation db = some true
    · rw [List.find?_cons_of_pos _ (by simp [evalStatusCond, h2])]
      simp [h1, h2]
    · rw [List.find?_cons_of_neg _ (by simp [evalStatusCond, h2])]
      by_cases h3 : self.has_active_quotation db = true
      · rw [List.find?_cons_of_pos _ (by simp [evalStatusCond, h3])]
        simp [h1, h2, h3]
      · rw [List.find?_cons_of_neg _ (by simp [evalStatusCond, h3])]
        by_cases h4 : self.has_ordered_quotation db = true
        · rw [List.find?_cons_of_pos _ (by simp [evalStatusCond, h4])]
          simp [h1, h2, h3, h4]
        · rw [List.find?_cons_of_neg _ (by simp [evalStatusCond, h4])]
          by_cases h5 : self.status = "Closed"
          · rw [List.find?_cons_of_pos _ (by simp [evalStatusCond, h5])]
            simp [h1, h2, h3, h4, h5]
          · rw [List.find?_cons_of_neg _ (by simp [evalStatusCond, h5])]
            simp [h1, h2, h3, h4, h5]

/-- Claim C8 counterexample: a line item whose item_code names no Item row
and whose backfill fields are empty makes validate_item_details raise (the
attribute access on the empty lookup result), even though the lookup itself
yields an empty result, refuting the without-error part of the claim. -/
theorem missing_item_lookup_raises :
    DB.getItemValue ⟨[], [], [], []⟩ "ITEM-MISSING" = none ∧
    Opportunity.validate_item_details ⟨[], [], [], []⟩
        ⟨"OPP-1", "Open", "", [⟨"ITEM-MISSING", "", "", "", ""⟩], []⟩ =
      .error "AttributeError: NoneType object has no attribute get" :=
  ⟨rfl, rfl⟩

/-- Claim C8 as amended: a missing referenced Item yields an empty (none)
lookup result, and the backfill step of validate_item_details completes
without raising exactly when every backfill field of the line item is
already non-empty (leaving the item unchanged); when any such field is
empty, the step raises an attribute error on the empty lookup result. -/
theorem missing_item_backfill_characterized (db : DB) (d : OppItem)
    (hmiss : db.getItemValue d.item_code = none) (hcode : d.item_code ≠ "") :
    (d.item_name ≠ "" ∧ d.description ≠ "" ∧ d.item_group ≠ "" ∧ d.brand ≠ "" →
      backfillItem db d = .ok d) ∧
    ((d.item_name = "" ∨ d.description = "" ∨ d.item_group = "" ∨ d.brand = "") →
      backfillItem db d = .error "AttributeError: NoneType object has no attribute get") := by
  constructor
  · rintro ⟨h1, h2, h3, h4⟩
    unfold backfillItem
    rw [if_neg (by simpa using hcode), hmiss, if_neg (by simp [h1, h2, h3, h4])]
  · intro hor
    unfold backfillItem
    rw [if_neg (by simpa using hcode), hmiss,
      if_pos (by rcases hor with h | h | h | h <;> simp [h])]

/-- Claim C8 witness: with an empty store, a fully filled line item passes
the backfill step unchanged even though its Item row is missing. -/
theorem missing_item_backfill_witness :
    DB.getItemValue dbEmpty "ITEM-GONE" = none ∧
    backfillItem dbEmpty ⟨"ITEM-GONE", "N", "D", "G", "B"⟩ =
      .ok ⟨"ITEM-GONE", "N", "D", "G", "B"⟩ := by
  refine ⟨rfl, ?_⟩
  exact (missing_item_backfill_characterized dbEmpty
    ⟨"ITEM-GONE", "N", "D", "G", "B"⟩ rfl (by decide)).1 (by decide)

end ERPNext
